import Mathlib

/-!
Shallow embedding of the SweetTech two-stage product-analysis app.

The embedding covers:
* a model of the JavaScript values flowing through the service layer
  (JSON-like trees, property access, truthiness);
* the service helpers from the analysis client
  (code-fence stripping, JSON parsing, source extraction,
  the stage-1 entry point analyzeProductProfile);
* the orchestrator state machine of the App component
  (handleAnalyze, handleReset, the loading flags and error field);
* the derived display metrics of the CompetitorComparison component
  (parseValue, per-metric maximum and relative bar widths).
-/

/-! ## JavaScript value model -/

/-- A JSON-like JavaScript value.  Arrays and objects are finite trees;
object fields are an association list (keys kept unique by construction
in the JSON parser below). -/
inductive JsVal where
  | vNull
  | vUndefined
  | vBool (b : Bool)
  | vNum (q : ℚ)
  | vStr (s : String)
  | vArr (elems : List JsVal)
  | vObj (fields : List (String × JsVal))

/-- JavaScript truthiness of a value.  `null`, `undefined`, `false`,
`0` and the empty string are falsy; arrays and objects are always truthy. -/
def jsTruthy : JsVal → Bool
  | .vNull => false
  | .vUndefined => false
  | .vBool b => b
  | .vNum q => decide (q ≠ 0)
  | .vStr s => decide (s ≠ "")
  | .vArr _ => true
  | .vObj _ => true

/-- First-occurrence lookup in an object field list. -/
def lookupField : List (String × JsVal) → String → Option JsVal
  | [], _ => none
  | (k, v) :: rest, key => if k = key then some v else lookupField rest key

/-- Non-throwing property access `v.k` for a non-nullish `v`: objects look
the key up, every other value (primitives box, arrays have no such named
property in the accesses this code performs) yields `undefined`. -/
def jsField (v : JsVal) (k : String) : JsVal :=
  match v with
  | .vObj fields => (lookupField fields k).getD .vUndefined
  | _ => .vUndefined

/-- Plain property access `v.k`: throws a TypeError on `null`/`undefined`,
otherwise behaves like `jsField`. -/
def getField (v : JsVal) (k : String) : Except String JsVal :=
  match v with
  | .vNull => .error "TypeError: cannot read properties of null"
  | .vUndefined => .error "TypeError: cannot read properties of undefined"
  | _ => .ok (jsField v k)

/-- Optional-chaining access `v?.k`: `undefined` when `v` is nullish,
otherwise plain access. -/
def optField (v : JsVal) (k : String) : JsVal :=
  match v with
  | .vNull => .vUndefined
  | .vUndefined => .vUndefined
  | _ => jsField v k

/-- Optional-chaining index access `v?.[i]`. -/
def optIndex (v : JsVal) (i : Nat) : JsVal :=
  match v with
  | .vNull => .vUndefined
  | .vUndefined => .vUndefined
  | .vArr elems => (elems[i]?).getD .vUndefined
  | .vObj fields => (lookupField fields (toString i)).getD .vUndefined
  | .vStr s =>
      match s.toList[i]? with
      | some c => .vStr (String.mk [c])
      | none => .vUndefined
  | _ => .vUndefined

/-- The primitive JavaScript values, used as `Set` keys: `new Set`
deduplicates primitives by value (SameValueZero) and objects by identity. -/
inductive JsPrim where
  | pNull
  | pUndefined
  | pBool (b : Bool)
  | pNum (q : ℚ)
  | pStr (s : String)
deriving DecidableEq

/-- The primitive view of a value, `none` for arrays and objects. -/
def JsVal.asPrim : JsVal → Option JsPrim
  | .vNull => some .pNull
  | .vUndefined => some .pUndefined
  | .vBool b => some (.pBool b)
  | .vNum q => some (.pNum q)
  | .vStr s => some (.pStr s)
  | .vArr _ => none
  | .vObj _ => none

/-- Worker for `setDedupJs`: keeps the first occurrence of every primitive
value, tracking the primitives already inserted; non-primitive elements
(distinct nodes of a response tree, hence distinct objects) are all kept. -/
def setDedupJsGo : List JsPrim → List JsVal → List JsVal
  | _, [] => []
  | seen, x :: xs =>
      match x.asPrim with
      | none => x :: setDedupJsGo seen xs
      | some p =>
          if p ∈ seen then setDedupJsGo seen xs
          else x :: setDedupJsGo (seen ++ [p]) xs

/-- Model of `Array.from(new Set(l))`: insertion-ordered deduplication. -/
def setDedupJs (l : List JsVal) : List JsVal := setDedupJsGo [] l

/-- Model of `Array.from(new Set(l))` for lists of a type with decidable equality
(the App-level source lists are string lists): keeps the first occurrence
of each element, in order. -/
def jsSetDedup {α : Type} [DecidableEq α] (l : List α) : List α :=
  l.foldl (fun acc x => if x ∈ acc then acc else acc ++ [x]) []

/-! ## Source extraction (`extractSources` in the service module)

```
const extractSources = (response: any): string[] => {
  const sources: string[] = [];
  const groundingChunks = response.candidates?.[0]?.groundingMetadata?.groundingChunks;
  if (groundingChunks) {
    groundingChunks.forEach((chunk: any) => {
       if (chunk.web?.uri) { sources.push(chunk.web.uri); }
    });
  }
  return Array.from(new Set(sources));
};
```
-/

/-- The `forEach` walk over the chunk list, accumulating the pushed
URIs: `if (chunk.web?.uri) sources.push(chunk.web.uri)`.  The bare access
`chunk.web` throws when a chunk is nullish. -/
def walkChunks : List JsVal → List JsVal → Except String (List JsVal)
  | acc, [] => .ok acc
  | acc, chunk :: rest =>
      match getField chunk "web" with
      | .error e => .error e
      | .ok web =>
          walkChunks
            (if jsTruthy (optField web "uri") then acc ++ [optField web "uri"] else acc)
            rest

/-- The grounding-chunk value reached by the optional chain
`response.candidates?.[0]?.groundingMetadata?.groundingChunks`
on a non-nullish `response`. -/
def chunksOf (response : JsVal) : JsVal :=
  optField (optField (optIndex (jsField response "candidates") 0) "groundingMetadata")
    "groundingChunks"

/-- Model of `extractSources`: walk the optional grounding-metadata chunk list and
return the deduplicated collected web URIs.  Calling `forEach` on a truthy
non-array throws, as does the bare `chunk.web` access on a nullish chunk. -/
def extractSources (response : JsVal) : Except String (List JsVal) :=
  match getField response "candidates" with
  | .error e => .error e
  | .ok candidates =>
      let groundingChunks :=
        optField (optField (optIndex candidates 0) "groundingMetadata") "groundingChunks"
      let walked : Except String (List JsVal) :=
        if jsTruthy groundingChunks then
          match groundingChunks with
          | .vArr chunks => walkChunks [] chunks
          | _ => .error "TypeError: forEach is not a function"
        else
          .ok []
      match walked with
      | .error e => .error e
      | .ok sources => .ok (setDedupJs sources)

/-! ## Numeric parse helper and derived display metrics
(`parseValue` and the bar-width computation in `CompetitorComparison.tsx`)

```
const parseValue = (str: string | undefined): number => {
  if (!str) return 0;
  const match = str.match(/[\d.]+/);
  return match ? parseFloat(match[0]) : 0;
};
...
const maxValue = Math.max(...allProducts.map(p => metric.getValue(p)));
...
const percent = maxValue > 0 ? (val / maxValue) * 100 : 0;
```
-/

/-- A JavaScript number restricted to the values this code produces:
either NaN or an exact rational. -/
inductive JsNum where
  | nan
  | num (q : ℚ)
deriving DecidableEq

/-- A character matched by the character class of the regex
used by parseValue, digits and the decimal point. -/
def isNumChar (c : Char) : Bool := c.isDigit || c = '.'

/-- Model of `str.match(/[\d.]+/)`: the leftmost maximal run of digit or dot
characters, `none` when the string holds no such character. -/
def firstRun (s : String) : Option String :=
  match (s.toList.dropWhile (fun c => !isNumChar c)).takeWhile isNumChar with
  | [] => none
  | l => some (String.mk l)

/-- The natural number denoted by a list of decimal digit characters. -/
def digitsToNat (l : List Char) : Nat :=
  l.foldl (fun n c => n * 10 + (c.toNat - 48)) 0

/-- The value of a fractional digit block: `fracToQ "50" = 50 / 100`. -/
def fracToQ (l : List Char) : ℚ :=
  (digitsToNat l : ℚ) / ((10 : ℚ) ^ l.length)

/-- Model of `parseFloat` on a run of digit/dot characters: the longest numeric
prefix `digits [. digits]`; a run offering no digit before the parse
stops (such as "." or "..5") gives NaN. -/
def parseFloatRun (s : String) : JsNum :=
  let l := s.toList
  let ip := l.takeWhile Char.isDigit
  match l.dropWhile Char.isDigit with
  | '.' :: r2 =>
      let fp := r2.takeWhile Char.isDigit
      if ip = [] ∧ fp = [] then .nan
      else .num ((digitsToNat ip : ℚ) + fracToQ fp)
  | _ => if ip = [] then .nan else .num (digitsToNat ip)

/-- Model of `parseValue`: 0 for an absent or empty (falsy) string and for a string
with no digit/dot character, otherwise `parseFloat` of the first
digit/dot run. -/
def parseValue (str : Option String) : JsNum :=
  match str with
  | none => .num 0
  | some s =>
      if s = "" then .num 0
      else
        match firstRun s with
        | none => .num 0
        | some run => parseFloatRun run

/-- Model of `a || b` on optional strings: the JavaScript or-else falls through on
`undefined` and on the empty (falsy) string. -/
def jsOrStr (a b : Option String) : Option String :=
  match a with
  | some s => if s = "" then b else some s
  | none => b

/-- The nutrition record of a competitor (free-text fields). -/
structure Nutrition where
  energy : Option String
  sugar : Option String
  fat : Option String

/-- The specs record of the main profile; `energy` mirrors the dynamic
`p.specs?.energy` access (the field is read even though the declared
profile type does not list it). -/
structure SpecsT where
  moisture : Option String
  brix : Option String
  texture : Option String
  flavorProfile : Option String
  energy : Option String

/-- A row of the comparison table: the merged union of the profile and
competitor shapes (`MergedProduct` in the component). -/
structure MergedProduct where
  name : String
  isMain : Bool
  price : Option String
  pricePer100g : Option String
  usp : Option String
  nutrition : Option Nutrition
  specs : Option SpecsT

/-- Metric getter for price: `parseValue(p.price || p.pricePer100g)`. -/
def getValuePrice (p : MergedProduct) : JsNum :=
  parseValue (jsOrStr p.price p.pricePer100g)

/-- Metric getter for energy:
`parseValue(p.nutrition?.energy || p.specs?.energy)`. -/
def getValueEnergy (p : MergedProduct) : JsNum :=
  parseValue (jsOrStr (p.nutrition.bind Nutrition.energy) (p.specs.bind SpecsT.energy))

/-- Metric getter for sugar: `parseValue(p.nutrition?.sugar)`. -/
def getValueSugar (p : MergedProduct) : JsNum :=
  parseValue (p.nutrition.bind Nutrition.sugar)

/-- Metric getter for fat: `parseValue(p.nutrition?.fat)`. -/
def getValueFat (p : MergedProduct) : JsNum :=
  parseValue (p.nutrition.bind Nutrition.fat)

/-- The four comparison metrics (price, energy, sugar, fat). -/
def metricGetters : List (MergedProduct → JsNum) :=
  [getValuePrice, getValueEnergy, getValueSugar, getValueFat]

/-- Model of `Math.max` on two values: NaN-absorbing maximum. -/
def jsMax2 : JsNum → JsNum → JsNum
  | .nan, _ => .nan
  | .num _, .nan => .nan
  | .num a, .num b => .num (max a b)

/-- Model of `Math.max(...list)` over a nonempty spread, given as head and tail. -/
def jsMaxNe (x : JsNum) (xs : List JsNum) : JsNum := xs.foldl jsMax2 x

/-- Model of `maxValue > 0 ? (val / maxValue) * 100 : 0`: the relative bar width of
one value. A NaN maximum fails the `> 0` test, giving width 0. -/
def barPercent (maxV v : JsNum) : JsNum :=
  match maxV, v with
  | .num m, .num x => if 0 < m then .num (x / m * 100) else .num 0
  | .num m, .nan => if 0 < m then .nan else .num 0
  | .nan, _ => .num 0

/-- The parsed values of one metric over `allProducts`
(main profile row first, then the competitors). -/
def metricVals (g : MergedProduct → JsNum) (mainP : MergedProduct)
    (comps : List MergedProduct) : List JsNum :=
  (mainP :: comps).map g

/-- Model of `Math.max(...allProducts.map(p => metric.getValue(p)))`. -/
def metricMax (g : MergedProduct → JsNum) (mainP : MergedProduct)
    (comps : List MergedProduct) : JsNum :=
  jsMaxNe (g mainP) (comps.map g)

/-- The relative bar widths of one metric row, in product order. -/
def metricBars (g : MergedProduct → JsNum) (mainP : MergedProduct)
    (comps : List MergedProduct) : List JsNum :=
  (metricVals g mainP comps).map (barPercent (metricMax g mainP comps))

/-- The bar width the specification ascribes to a parsed value `v` when
the metric maximum is the positive number `m`: `(v / m) * 100`, NaN kept. -/
def jsScale (m : ℚ) : JsNum → JsNum
  | .nan => .nan
  | .num v => .num (v / m * 100)

/-! ## Orchestrator state machine (the App component)

State fields follow the useState hooks of App; `handleAnalyze` takes the
outcomes the two service calls would produce ("what the endpoint returns
if invoked") and reports how many times each endpoint was actually called.
-/

/-- The successful result of `analyzeProductProfile` as consumed by the
App: the profile value and the cited source URLs. -/
structure ProfileCallOk where
  profile : JsVal
  sources : List String

/-- The successful result of `analyzeProductInsights` as consumed by the
App: an opaque payload (competitors, SWOT, ... — never inspected by the
orchestrator) plus the optional source list checked by `if (insights.sources)`. -/
structure InsightsCallOk where
  payload : JsVal
  sources : Option (List String)

/-- How many requests `handleAnalyze` issued to each endpoint. -/
structure CallCounts where
  profileCalls : Nat
  insightsCalls : Nat

/-- The state hooks of the App component. -/
structure AppState where
  input : String
  file : Option String
  language : String
  profileData : Option JsVal
  insightsData : Option InsightsCallOk
  allSources : List String
  isAnalyzingProfile : Bool
  isAnalyzingInsights : Bool
  error : Option String
  isGeneratingPdf : Bool

/-- Model of `handleAnalyze`: guard on empty input, reset the session fields, run
stage 1 and on success stage 2; errors of either stage are caught and
recorded, and the `finally` block clears both loading flags.  Stage
outcomes are supplied as `Except` values; an exception is modelled by its
message string (`err.message` is what the catch block records). -/
def handleAnalyze (s : AppState) (stage1 : Except String ProfileCallOk)
    (stage2 : Except String InsightsCallOk) : AppState × CallCounts :=
  if s.input = "" ∧ s.file = none then (s, ⟨0, 0⟩)
  else
    let s0 : AppState :=
      { s with isAnalyzingProfile := true, isAnalyzingInsights := false,
               error := none, profileData := none, insightsData := none,
               allSources := [] }
    match stage1 with
    | .error msg =>
        ({ s0 with error := some msg,
                   isAnalyzingProfile := false, isAnalyzingInsights := false },
         ⟨1, 0⟩)
    | .ok pr =>
        let s1 : AppState :=
          { s0 with profileData := some pr.profile,
                    allSources := s0.allSources ++ pr.sources,
                    isAnalyzingProfile := false, isAnalyzingInsights := true }
        match stage2 with
        | .error msg =>
            ({ s1 with error := some msg,
                       isAnalyzingProfile := false, isAnalyzingInsights := false },
             ⟨1, 1⟩)
        | .ok ins =>
            let s2 : AppState := { s1 with insightsData := some ins }
            let s3 : AppState :=
              match ins.sources with
              | some srcs => { s2 with allSources := jsSetDedup (s2.allSources ++ srcs) }
              | none => s2
            ({ s3 with isAnalyzingProfile := false, isAnalyzingInsights := false },
             ⟨1, 1⟩)

/-- Model of `handleReset`: clears profile, insights, input, file and sources.
(The error field, the language and the loading flags are not written.) -/
def handleReset (s : AppState) : AppState :=
  { s with profileData := none, insightsData := none, input := "",
           file := none, allSources := [] }

/-- The `isIdle` view condition of the component:
`!profileData && !isAnalyzingProfile`. -/
def isIdle (s : AppState) : Bool :=
  s.profileData.isNone && !s.isAnalyzingProfile

/-- The `Errored` state of the session state machine: an error is
recorded and no stage is loading. -/
def Errored (s : AppState) : Prop :=
  s.error ≠ none ∧ s.isAnalyzingProfile = false ∧ s.isAnalyzingInsights = false

/-! ## Analysis client, stage 1 (`analyzeProductProfile` in the service module)

The prompt construction and media encoding only shape the request; the
outcome of the awaited network call is an input here (`net`), either the
provider response object or the message of the thrown error.

```
let resultText = response.text || "";
resultText = resultText.replace(/```json/g, "").replace(/```/g, "").trim();
const data = JSON.parse(resultText);
const sources = extractSources(response);
return { profile: data.profile, sources };
```
-/

/-- Replace every leftmost non-overlapping occurrence of `pat` by `repl`
(`String.prototype.replace` with a global literal pattern); structural in
the fuel, which the callers set to the input length. -/
def replaceAux (pat repl : List Char) : Nat → List Char → List Char
  | 0, l => l
  | fuel + 1, l =>
      if pat.isPrefixOf l then repl ++ replaceAux pat repl fuel (l.drop pat.length)
      else
        match l with
        | [] => []
        | c :: rest => c :: replaceAux pat repl fuel rest

/-- Model of `s.replace(/pat/g, repl)` on character lists. -/
def replaceAll (pat repl s : List Char) : List Char := replaceAux pat repl s.length s

/-- Model of `s.trim()`: drop whitespace from both ends. -/
def trimList (l : List Char) : List Char :=
  ((l.dropWhile Char.isWhitespace).reverse.dropWhile Char.isWhitespace).reverse

/-- Model of `s.replace(/```json/g, "").replace(/```/g, "").trim()`. -/
def stripFences (s : String) : String :=
  String.mk (trimList (replaceAll "```".toList [] (replaceAll "```json".toList [] s.toList)))

/-! ### A model of `JSON.parse` -/

/-- JSON whitespace characters. -/
def isJsonWs (c : Char) : Bool := c = ' ' || c = '\t' || c = '\n' || c = '\r'

/-- Skip JSON whitespace. -/
def skipWs (l : List Char) : List Char := l.dropWhile isJsonWs

/-- The value of a hexadecimal digit. -/
def hexVal (c : Char) : Option Nat :=
  if c.isDigit then some (c.toNat - 48)
  else if 'a' ≤ c ∧ c ≤ 'f' then some (c.toNat - 87)
  else if 'A' ≤ c ∧ c ≤ 'F' then some (c.toNat - 55)
  else none

/-- Parse the body of a JSON string after the opening quote, accumulating
decoded characters; rejects raw control characters and bad escapes. -/
def pString : Nat → List Char → List Char → Except String (String × List Char)
  | 0, _, _ => .error "SyntaxError: unterminated string in JSON"
  | fuel + 1, acc, l =>
      match l with
      | [] => .error "SyntaxError: unterminated string in JSON"
      | c :: rest =>
          if c = '"' then .ok (String.mk acc.reverse, rest)
          else if c = '\\' then
            match rest with
            | [] => .error "SyntaxError: bad escape in JSON"
            | e :: rest2 =>
                if e = '"' then pString fuel ('"' :: acc) rest2
                else if e = '\\' then pString fuel ('\\' :: acc) rest2
                else if e = '/' then pString fuel ('/' :: acc) rest2
                else if e = 'b' then pString fuel ('\x08' :: acc) rest2
                else if e = 'f' then pString fuel ('\x0c' :: acc) rest2
                else if e = 'n' then pString fuel ('\n' :: acc) rest2
                else if e = 'r' then pString fuel ('\r' :: acc) rest2
                else if e = 't' then pString fuel ('\t' :: acc) rest2
                else if e = 'u' then
                  match rest2 with
                  | h1 :: h2 :: h3 :: h4 :: rest3 =>
                      match hexVal h1, hexVal h2, hexVal h3, hexVal h4 with
                      | some a, some b, some c2, some d =>
                          pString fuel
                            (Char.ofNat (((a * 16 + b) * 16 + c2) * 16 + d) :: acc) rest3
                      | _, _, _, _ => .error "SyntaxError: bad unicode escape in JSON"
                  | _ => .error "SyntaxError: bad unicode escape in JSON"
                else .error "SyntaxError: bad escape in JSON"
          else if c.toNat < 32 then .error "SyntaxError: bad control character in JSON"
          else pString fuel (c :: acc) rest

/-- Parse an optional exponent part of a JSON number. -/
def pExponent (l : List Char) : Except String (Int × List Char) :=
  match l with
  | 'e' :: r =>
      let (esign, r1) :=
        match r with
        | '+' :: rr => ((1 : Int), rr)
        | '-' :: rr => ((-1 : Int), rr)
        | _ => ((1 : Int), r)
      let ed := r1.takeWhile Char.isDigit
      if ed = [] then .error "SyntaxError: bad exponent in JSON number"
      else .ok (esign * (digitsToNat ed : Int), r1.dropWhile Char.isDigit)
  | 'E' :: r =>
      let (esign, r1) :=
        match r with
        | '+' :: rr => ((1 : Int), rr)
        | '-' :: rr => ((-1 : Int), rr)
        | _ => ((1 : Int), r)
      let ed := r1.takeWhile Char.isDigit
      if ed = [] then .error "SyntaxError: bad exponent in JSON number"
      else .ok (esign * (digitsToNat ed : Int), r1.dropWhile Char.isDigit)
  | _ => .ok (0, l)

/-- Parse a JSON number (sign, integer part without leading zeros,
optional fraction, optional exponent) into an exact rational. -/
def pNumber (l : List Char) : Except String (ℚ × List Char) := do
  let (neg, l1) :=
    match l with
    | '-' :: r => (true, r)
    | _ => (false, l)
  let ip := l1.takeWhile Char.isDigit
  let l2 := l1.dropWhile Char.isDigit
  if ip = [] then .error "SyntaxError: expected number in JSON" else
  if ip.length > 1 ∧ ip.headD 'x' = '0' then
    .error "SyntaxError: leading zero in JSON number" else
  let (fq, l3) ←
    match l2 with
    | '.' :: r =>
        let fd := r.takeWhile Char.isDigit
        if fd = [] then Except.error "SyntaxError: bad fraction in JSON number"
        else Except.ok (fracToQ fd, r.dropWhile Char.isDigit)
    | _ => Except.ok ((0 : ℚ), l2)
  let (ex, l4) ← pExponent l3
  let base : ℚ := (digitsToNat ip : ℚ) + fq
  let scaled : ℚ := if 0 ≤ ex then base * 10 ^ ex.toNat else base / 10 ^ (-ex).toNat
  pure (if neg then -scaled else scaled, l4)

/-- Assignment into an object: overwrite the value at an existing key in
place, else append — repeated keys in a JSON document keep the first
position with the last value, as in JavaScript. -/
def objInsert : List (String × JsVal) → String → JsVal → List (String × JsVal)
  | [], k, v => [(k, v)]
  | (k0, v0) :: rest, k, v =>
      if k0 = k then (k0, v) :: rest else (k0, v0) :: objInsert rest k v

mutual

/-- Parse one JSON value at the head of the input. -/
def pVal : Nat → List Char → Except String (JsVal × List Char)
  | 0, _ => .error "SyntaxError: JSON input too large"
  | fuel + 1, l =>
      match skipWs l with
      | [] => .error "SyntaxError: unexpected end of JSON input"
      | 'n' :: 'u' :: 'l' :: 'l' :: rest => .ok (.vNull, rest)
      | 't' :: 'r' :: 'u' :: 'e' :: rest => .ok (.vBool true, rest)
      | 'f' :: 'a' :: 'l' :: 's' :: 'e' :: rest => .ok (.vBool false, rest)
      | '"' :: rest => do
          let (s, r) ← pString (rest.length + 1) [] rest
          .ok (.vStr s, r)
      | '[' :: rest =>
          (match skipWs rest with
           | ']' :: r => .ok (.vArr [], r)
           | _ => do
               let (elems, r) ← pItems fuel (skipWs rest)
               .ok (.vArr elems, r))
      | '\x7b' :: rest =>
          (match skipWs rest with
           | '\x7d' :: r => .ok (.vObj [], r)
           | _ => do
               let (fields, r) ← pMembers fuel [] (skipWs rest)
               .ok (.vObj fields, r))
      | l2 => do
          let (q, r) ← pNumber l2
          .ok (.vNum q, r)

/-- Parse the items of a nonempty JSON array up to the closing bracket. -/
def pItems : Nat → List Char → Except String (List JsVal × List Char)
  | 0, _ => .error "SyntaxError: JSON input too large"
  | fuel + 1, l => do
      let (v, r) ← pVal fuel l
      match skipWs r with
      | ',' :: r2 => do
          let (vs, r3) ← pItems fuel r2
          .ok (v :: vs, r3)
      | ']' :: r2 => .ok ([v], r2)
      | _ => .error "SyntaxError: expected comma or closing bracket in JSON array"

/-- Parse the members of a nonempty JSON object up to the closing brace,
assigning each member into the accumulated field list. -/
def pMembers : Nat → List (String × JsVal) → List Char →
    Except String (List (String × JsVal) × List Char)
  | 0, _, _ => .error "SyntaxError: JSON input too large"
  | fuel + 1, acc, l => do
      match skipWs l with
      | '"' :: rest => do
          let (k, r) ← pString (rest.length + 1) [] rest
          match skipWs r with
          | ':' :: r2 => do
              let (v, r3) ← pVal fuel r2
              let acc2 := objInsert acc k v
              match skipWs r3 with
              | ',' :: r4 => pMembers fuel acc2 r4
              | '\x7d' :: r4 => .ok (acc2, r4)
              | _ => .error "SyntaxError: expected comma or closing brace in JSON object"
          | _ => .error "SyntaxError: expected colon in JSON object"
      | _ => .error "SyntaxError: expected property name in JSON object"

end

/-- Model of `JSON.parse`: one JSON document, with no trailing non-whitespace. -/
def parseJson (l : List Char) : Except String JsVal := do
  let (v, r) ← pVal (2 * l.length + 2) l
  match skipWs r with
  | [] => pure v
  | _ => .error "SyntaxError: unexpected non-whitespace after JSON"

/-- Model of `response.text || ""` followed by the `replace` calls: a truthy
non-string value has no `replace` method and throws. -/
def responseText (response : JsVal) : Except String String :=
  match getField response "text" with
  | .error e => .error e
  | .ok tv =>
      if jsTruthy tv then
        match tv with
        | .vStr s => .ok s
        | _ => .error "TypeError: replace is not a function"
      else .ok ""

/-- The value of `{ profile: data.profile, sources }` returned by a
successful stage-1 call. -/
structure ProfileSvcResult where
  profile : JsVal
  sources : List JsVal

/-- The try-block of `analyzeProductProfile`: await the network call,
read and strip the response text, `JSON.parse` it, extract the cited
sources, and read `data.profile`. -/
def profileTryBody (net : Except String JsVal) : Except String ProfileSvcResult :=
  match net with
  | .error e => .error e
  | .ok response =>
      match responseText response with
      | .error e => .error e
      | .ok text =>
          match parseJson (stripFences text).toList with
          | .error e => .error e
          | .ok data =>
              match extractSources response with
              | .error e => .error e
              | .ok sources =>
                  match getField data "profile" with
                  | .error e => .error e
                  | .ok profile => .ok ⟨profile, sources⟩

/-- Model of `analyzeProductProfile`: a missing API key throws its own message
before the try-block; every failure inside the try-block is caught and
rethrown as the stage-1 analysis error. -/
def analyzeProductProfile (apiKeyPresent : Bool) (net : Except String JsVal) :
    Except String ProfileSvcResult :=
  if !apiKeyPresent then
    .error "API Key is missing. Please check your environment configuration."
  else
    match profileTryBody net with
    | .ok r => .ok r
    | .error _ => .error "Failed to analyze profile."

/-! ## Sample values used by the concrete instances below -/

/-- The URIs the `forEach` body collects from a chunk list of non-nullish
chunks (each truthy `chunk.web?.uri`, in order, before deduplication). -/
def collectedUris (chunks : List JsVal) : List JsVal :=
  chunks.filterMap (fun ch =>
    let u := optField (jsField ch "web") "uri"
    if jsTruthy u then some u else none)

/-- A session sitting at the input screen with text entered. -/
def sampleIdle : AppState :=
  { input := "Choco Bar 50g", file := none, language := "EN", profileData := none,
    insightsData := none, allSources := [], isAnalyzingProfile := false,
    isAnalyzingInsights := false, error := none, isGeneratingPdf := false }

/-- A session with no text and no media file. -/
def sampleEmpty : AppState := { sampleIdle with input := "" }

/-- A session holding a profile, one source and a recorded error. -/
def sampleErrored : AppState :=
  { sampleIdle with
      profileData := some (.vStr "profile"),
      allSources := ["https://a.example"],
      error := some "boom" }

/-- A successful stage-1 outcome with two sources. -/
def sampleProfileOk : ProfileCallOk :=
  ⟨.vStr "profile", ["https://a.example", "https://b.example"]⟩

/-- A successful stage-2 outcome whose sources overlap stage 1. -/
def sampleInsightsOk : InsightsCallOk :=
  ⟨.vObj [], some ["https://b.example", "https://c.example"]⟩

/-- A provider response whose text is the JSON document without a
"profile" key (the empty object). -/
def respNoProfile : JsVal := .vObj [("text", .vStr "\x7b\x7d")]

/-- A well-formed grounding chunk citing one web URI. -/
def chunkA : JsVal := .vObj [("web", .vObj [("uri", .vStr "https://a.example")])]

/-- A chunk list repeating the same URI. -/
def goodChunks : List JsVal := [chunkA, chunkA]

/-- A provider response with a well-formed grounding chunk list. -/
def respGood : JsVal :=
  .vObj [("candidates", .vArr [.vObj [("groundingMetadata",
    .vObj [("groundingChunks", .vArr goodChunks)])]])]

/-- A provider response whose grounding-chunk value is a truthy
non-array (a string). -/
def respBadChunks : JsVal :=
  .vObj [("candidates", .vArr [.vObj [("groundingMetadata",
    .vObj [("groundingChunks", .vStr "oops")])]])]

/-- The main-product row of the bar-width example: price "10". -/
def mainP0 : MergedProduct := ⟨"Main", true, some "10", none, none, none, none⟩

/-- The competitor rows of the bar-width example: prices "0" and "20". -/
def comps0 : List MergedProduct :=
  [⟨"A", false, some "0", none, none, none, none⟩,
   ⟨"B", false, some "20", none, none, none, none⟩]

/-! ## Theorems -/

/-- C9: for an input with empty text and no media file, start() is a
no-op: the state is returned unchanged and neither endpoint is called. -/
theorem start_empty_input_noop (s : AppState)
    (o1 : Except String ProfileCallOk) (o2 : Except String InsightsCallOk)
    (h1 : s.input = "") (h2 : s.file = none) :
    handleAnalyze s o1 o2 = (s, ⟨0, 0⟩) := by
  simp [handleAnalyze, h1, h2]

/-- Witness for C9 at a concrete empty-input session. -/
theorem start_empty_input_noop_witness :
    handleAnalyze sampleEmpty (.error "network down") (.error "network down 2") =
      (sampleEmpty, ⟨0, 0⟩) :=
  start_empty_input_noop sampleEmpty _ _ rfl rfl

/-- C10: whenever a started analysis sequence terminates — both stages
succeed, stage 1 fails, or stage 2 fails — both loading flags are false. -/
theorem analysis_clears_loading_flags (s : AppState)
    (o1 : Except String ProfileCallOk) (o2 : Except String InsightsCallOk)
    (h : ¬(s.input = "" ∧ s.file = none)) :
    (handleAnalyze s o1 o2).1.isAnalyzingProfile = false ∧
    (handleAnalyze s o1 o2).1.isAnalyzingInsights = false := by
  cases o1 with
  | error msg => simp [handleAnalyze, h]
  | ok pr =>
      cases o2 with
      | error msg => simp [handleAnalyze, h]
      | ok ins =>
          cases hs : ins.sources <;> simp [handleAnalyze, h, hs]

/-- Witness for C10 at a concrete session and stage outcomes. -/
theorem analysis_clears_loading_flags_witness :
    (handleAnalyze sampleIdle (.ok sampleProfileOk) (.ok sampleInsightsOk)).1.isAnalyzingProfile
        = false ∧
    (handleAnalyze sampleIdle (.ok sampleProfileOk) (.ok sampleInsightsOk)).1.isAnalyzingInsights
        = false :=
  analysis_clears_loading_flags sampleIdle _ _ (by simp [sampleIdle])

/-- C1: on a stage-1 failure the session reaches Errored with the error
recorded and no profile set, and the insights endpoint is never called. -/
theorem stage1_failure_reaches_errored (s : AppState) (msg : String)
    (o2 : Except String InsightsCallOk) (h : ¬(s.input = "" ∧ s.file = none)) :
    Errored (handleAnalyze s (.error msg) o2).1 ∧
    (handleAnalyze s (.error msg) o2).1.error = some msg ∧
    (handleAnalyze s (.error msg) o2).1.profileData = none ∧
    (handleAnalyze s (.error msg) o2).2.insightsCalls = 0 := by
  simp [handleAnalyze, h, Errored]

/-- Witness for C1 at a concrete session. -/
theorem stage1_failure_reaches_errored_witness :
    Errored (handleAnalyze sampleIdle (.error "Failed to analyze profile.")
        (.ok sampleInsightsOk)).1 ∧
    (handleAnalyze sampleIdle (.error "Failed to analyze profile.")
        (.ok sampleInsightsOk)).1.error = some "Failed to analyze profile." ∧
    (handleAnalyze sampleIdle (.error "Failed to analyze profile.")
        (.ok sampleInsightsOk)).1.profileData = none ∧
    (handleAnalyze sampleIdle (.error "Failed to analyze profile.")
        (.ok sampleInsightsOk)).2.insightsCalls = 0 :=
  stage1_failure_reaches_errored sampleIdle _ _ (by simp [sampleIdle])

/-- C2: on a stage-2 failure after a successful stage 1 the session
reaches Errored while the stage-1 profile and its sources are kept. -/
theorem stage2_failure_keeps_profile (s : AppState) (pr : ProfileCallOk)
    (msg : String) (h : ¬(s.input = "" ∧ s.file = none)) :
    Errored (handleAnalyze s (.ok pr) (.error msg)).1 ∧
    (handleAnalyze s (.ok pr) (.error msg)).1.error = some msg ∧
    (handleAnalyze s (.ok pr) (.error msg)).1.profileData = some pr.profile ∧
    (handleAnalyze s (.ok pr) (.error msg)).1.allSources = pr.sources := by
  simp [handleAnalyze, h, Errored]

/-- Witness for C2 at a concrete session. -/
theorem stage2_failure_keeps_profile_witness :
    Errored (handleAnalyze sampleIdle (.ok sampleProfileOk)
        (.error "Failed to generate insights.")).1 ∧
    (handleAnalyze sampleIdle (.ok sampleProfileOk)
        (.error "Failed to generate insights.")).1.error
        = some "Failed to generate insights." ∧
    (handleAnalyze sampleIdle (.ok sampleProfileOk)
        (.error "Failed to generate insights.")).1.profileData
        = some sampleProfileOk.profile ∧
    (handleAnalyze sampleIdle (.ok sampleProfileOk)
        (.error "Failed to generate insights.")).1.allSources
        = sampleProfileOk.sources :=
  stage2_failure_keeps_profile sampleIdle _ _ (by simp [sampleIdle])

/-- C5 counterexample: handleReset does not clear the last-error field —
resetting a session whose error is "boom" keeps that error. -/
theorem handleReset_keeps_error_counterexample :
    (handleReset sampleErrored).error = some "boom" ∧
    (handleReset sampleErrored).error ≠ none := by
  exact ⟨rfl, by simp [handleReset, sampleErrored, sampleIdle]⟩

/-- C5 amended: reset clears profile, insights, input text, media file
and accumulated sources and leaves every other field — in particular the
last-error field — unchanged; the session is Idle afterwards whenever no
profile analysis is in flight. -/
theorem handleReset_amended (s : AppState) :
    (handleReset s).profileData = none ∧
    (handleReset s).insightsData = none ∧
    (handleReset s).input = "" ∧
    (handleReset s).file = none ∧
    (handleReset s).allSources = [] ∧
    (handleReset s).error = s.error ∧
    (handleReset s).language = s.language ∧
    (handleReset s).isAnalyzingProfile = s.isAnalyzingProfile ∧
    (handleReset s).isAnalyzingInsights = s.isAnalyzingInsights ∧
    (handleReset s).isGeneratingPdf = s.isGeneratingPdf ∧
    (s.isAnalyzingProfile = false → isIdle (handleReset s) = true) := by
  refine ⟨rfl, rfl, rfl, rfl, rfl, rfl, rfl, rfl, rfl, rfl, ?_⟩
  intro hflag
  simp [isIdle, handleReset, hflag]

/-- Witness for C5 (amended) at the concrete errored session. -/
theorem handleReset_amended_witness :
    (handleReset sampleErrored).error = sampleErrored.error ∧
    isIdle (handleReset sampleErrored) = true :=
  ⟨(handleReset_amended sampleErrored).2.2.2.2.2.1,
   (handleReset_amended sampleErrored).2.2.2.2.2.2.2.2.2.2 rfl⟩

/-- Membership in the `jsSetDedup` fold, generalized over the accumulator. -/
theorem jsSetDedup_foldl_mem {α : Type} [DecidableEq α] (l : List α) :
    ∀ (acc : List α) (x : α),
      x ∈ l.foldl (fun acc x => if x ∈ acc then acc else acc ++ [x]) acc ↔
        x ∈ acc ∨ x ∈ l := by
  induction l with
  | nil => simp
  | cons a t ih =>
      intro acc x
      simp only [List.foldl_cons]
      by_cases ha : a ∈ acc
      · rw [if_pos ha, ih]
        constructor
        · rintro (h | h)
          · exact Or.inl h
          · exact Or.inr (List.mem_cons_of_mem a h)
        · rintro (h | h)
          · exact Or.inl h
          · rcases List.mem_cons.mp h with rfl | h
            · exact Or.inl ha
            · exact Or.inr h
      · rw [if_neg ha, ih]
        simp only [List.mem_append, List.mem_singleton, List.mem_cons]
        tauto

/-- The `jsSetDedup` fold keeps the accumulator duplicate-free. -/
theorem jsSetDedup_foldl_nodup {α : Type} [DecidableEq α] (l : List α) :
    ∀ acc : List α, acc.Nodup →
      (l.foldl (fun acc x => if x ∈ acc then acc else acc ++ [x]) acc).Nodup := by
  induction l with
  | nil => intro acc h; simpa using h
  | cons a t ih =>
      intro acc h
      simp only [List.foldl_cons]
      by_cases ha : a ∈ acc
      · rw [if_pos ha]; exact ih acc h
      · rw [if_neg ha]
        exact ih _ (by simp [List.nodup_append, h, ha])

/-- The list `jsSetDedup` produces is duplicate-free. -/
theorem jsSetDedup_nodup {α : Type} [DecidableEq α] (l : List α) :
    (jsSetDedup l).Nodup :=
  jsSetDedup_foldl_nodup l [] List.nodup_nil

/-- The list `jsSetDedup` produces keeps exactly the elements of its input. -/
theorem jsSetDedup_mem {α : Type} [DecidableEq α] (l : List α) (x : α) :
    x ∈ jsSetDedup l ↔ x ∈ l := by
  rw [jsSetDedup, jsSetDedup_foldl_mem]
  simp

/-- C3: after a successful stage 1 with sources `pr.sources` and a
successful stage 2 with sources `srcs2`, the accumulated session source
list is duplicate-free and holds exactly the union of the two sets. -/
theorem merged_sources_union (s : AppState) (pr : ProfileCallOk)
    (ins : InsightsCallOk) (srcs2 : List String)
    (h : ¬(s.input = "" ∧ s.file = none)) (h2 : ins.sources = some srcs2) :
    (handleAnalyze s (.ok pr) (.ok ins)).1.allSources.Nodup ∧
    ∀ u, u ∈ (handleAnalyze s (.ok pr) (.ok ins)).1.allSources ↔
      u ∈ pr.sources ∨ u ∈ srcs2 := by
  have hs : (handleAnalyze s (.ok pr) (.ok ins)).1.allSources =
      jsSetDedup (pr.sources ++ srcs2) := by
    simp [handleAnalyze, h, h2]
  rw [hs]
  refine ⟨jsSetDedup_nodup _, fun u => ?_⟩
  rw [jsSetDedup_mem, List.mem_append]

/-- Witness for C3: stage 1 yields sources A, B and stage 2 yields B, C;
the merged list is duplicate-free and B and C are both present once. -/
theorem merged_sources_union_witness :
    (handleAnalyze sampleIdle (.ok sampleProfileOk) (.ok sampleInsightsOk)).1.allSources.Nodup ∧
    ((handleAnalyze sampleIdle (.ok sampleProfileOk) (.ok sampleInsightsOk)).1.allSources =
      ["https://a.example", "https://b.example", "https://c.example"]) := by
  have h := merged_sources_union sampleIdle sampleProfileOk sampleInsightsOk
    ["https://b.example", "https://c.example"] (by simp [sampleIdle]) rfl
  exact ⟨h.1, rfl⟩

/-- A digit/dot run whose head is a digit parses to an actual number. -/
theorem parseFloatRun_head_digit (run : String) (d : Char) (rest : List Char)
    (hr : run.toList = d :: rest) (hd : d.isDigit = true) :
    ∃ q : ℚ, parseFloatRun run = .num q := by
  unfold parseFloatRun
  rw [hr]
  simp only [List.takeWhile_cons_of_pos hd, List.dropWhile_cons_of_pos hd]
  split
  · rw [if_neg (by simp)]
    exact ⟨_, rfl⟩
  · rw [if_neg (by simp)]
    exact ⟨_, rfl⟩

/-- C6 counterexample: the input "." is non-numeric, yet parseValue
yields NaN on it rather than 0 — its first digit/dot run is "." and
`parseFloat(".")` is NaN. -/
theorem parseValue_dot_counterexample :
    parseValue (some ".") = .nan ∧ parseValue (some ".") ≠ .num 0 :=
  ⟨rfl, by decide⟩

/-- C6 amended: parseValue yields 0 on absent or empty input and on any
input with no digit or dot character, and parseFloat of the first
digit/dot run otherwise — a number whenever that run leads with a digit,
but NaN (not 0) when the run forms no number, as on ".".  In particular
"12.50 USD" gives 12.5 and "N/A" gives 0. -/
theorem parseValue_spec :
    parseValue none = .num 0 ∧
    parseValue (some "") = .num 0 ∧
    parseValue (some "N/A") = .num 0 ∧
    parseValue (some "12.50 USD") = .num (25 / 2) ∧
    parseValue (some ".") = .nan ∧
    (∀ s : String, (∀ c ∈ s.toList, isNumChar c = false) →
       parseValue (some s) = .num 0) ∧
    (∀ s run, firstRun s = some run → parseValue (some s) = parseFloatRun run) ∧
    (∀ s run d rest, firstRun s = some run → run.toList = d :: rest →
       d.isDigit = true → ∃ q : ℚ, parseValue (some s) = .num q) := by
  have hrun : ∀ s run, firstRun s = some run →
      parseValue (some s) = parseFloatRun run := by
    intro s run h
    have hs : s ≠ "" := by
      rintro rfl
      simp [firstRun] at h
    simp only [parseValue, if_neg hs, h]
  refine ⟨rfl, rfl, rfl, ?_, rfl, ?_, hrun, ?_⟩
  · rw [show parseValue (some "12.50 USD") =
        .num ((12 : ℚ) + (50 : ℚ) / 10 ^ 2) from rfl]
    norm_num
  · intro s h
    by_cases hs : s = ""
    · simp [parseValue, hs]
    · have hd : s.toList.dropWhile (fun c => !isNumChar c) = [] := by
        rw [List.dropWhile_eq_nil_iff]
        intro x hx
        simp [h x hx]
      simp only [String.toList] at hd
      simp [parseValue, firstRun, hd, hs]
  · intro s run d rest h hr hd
    rw [hrun s run h]
    exact parseFloatRun_head_digit run d rest hr hd

/-- Witness for C6 (amended): a concrete all-letter input parses to 0. -/
theorem parseValue_spec_witness : parseValue (some "USD") = .num 0 :=
  parseValue_spec.2.2.2.2.2.1 "USD" (by decide)

/-- If a two-value `Math.max` is an actual number, both arguments were. -/
theorem jsMax2_num_inv (a b : JsNum) (m : ℚ) (h : jsMax2 a b = .num m) :
    (∃ qa, a = .num qa) ∧ (∃ qb, b = .num qb) := by
  cases a <;> cases b <;> simp_all [jsMax2]

/-- If `Math.max` over a nonempty spread is an actual number, every
spread value was an actual number. -/
theorem jsMaxNe_num_inv (xs : List JsNum) :
    ∀ (x : JsNum) (m : ℚ), jsMaxNe x xs = .num m →
      (∃ q, x = .num q) ∧ ∀ v ∈ xs, ∃ q, v = .num q := by
  induction xs with
  | nil =>
      intro x m h
      exact ⟨⟨m, h⟩, by simp⟩
  | cons a t ih =>
      intro x m h
      obtain ⟨⟨q0, hq0⟩, hall⟩ := ih (jsMax2 x a) m h
      obtain ⟨hx, ha⟩ := jsMax2_num_inv x a q0 hq0
      refine ⟨hx, fun v hv => ?_⟩
      rcases List.mem_cons.mp hv with rfl | hv
      · exact ha
      · exact hall v hv

/-- A zero metric maximum gives bar width 0 for every value. -/
theorem barPercent_zero (v : JsNum) : barPercent (.num 0) v = .num 0 := by
  cases v <;> simp [barPercent]

/-- A positive numeric maximum scales a numeric value to its relative
percentage. -/
theorem barPercent_pos (m : ℚ) (hm : 0 < m) (q : ℚ) :
    barPercent (.num m) (.num q) = .num (q / m * 100) := by
  simp [barPercent, hm]

/-- C7: for every comparison metric, when the metric maximum is the
number 0 every relative bar width is 0 (no division is attempted), and
when the maximum is a positive number `m` no parsed value is NaN and the
bar widths are exactly the parsed values scaled by `100 / m`. -/
theorem metric_bar_widths (g : MergedProduct → JsNum) (_hg : g ∈ metricGetters)
    (mainP : MergedProduct) (comps : List MergedProduct) :
    (metricMax g mainP comps = .num 0 →
       metricBars g mainP comps = (metricVals g mainP comps).map (fun _ => .num 0)) ∧
    (∀ m : ℚ, metricMax g mainP comps = .num m → 0 < m →
       JsNum.nan ∉ metricVals g mainP comps ∧
       metricBars g mainP comps = (metricVals g mainP comps).map (jsScale m)) := by
  constructor
  · intro h0
    unfold metricBars
    rw [h0]
    exact List.map_congr_left fun v _ => barPercent_zero v
  · intro m hm hmpos
    obtain ⟨⟨q0, hq0⟩, hall⟩ := jsMaxNe_num_inv (comps.map g) (g mainP) m hm
    have hallvals : ∀ v ∈ metricVals g mainP comps, ∃ q, v = .num q := by
      intro v hv
      rcases List.mem_cons.mp hv with rfl | hv
      · exact ⟨q0, hq0⟩
      · exact hall v hv
    constructor
    · intro hnan
      obtain ⟨q, hq⟩ := hallvals _ hnan
      exact JsNum.noConfusion hq
    · unfold metricBars
      rw [hm]
      refine List.map_congr_left fun v hv => ?_
      obtain ⟨q, hq⟩ := hallvals v hv
      rw [hq, barPercent_pos m hmpos q]
      rfl

/-- Witness for C7 at prices "10", "0", "20": the price maximum is 20,
no parsed value is NaN, and the widths are the values scaled by 5. -/
theorem metric_bar_widths_witness :
    JsNum.nan ∉ metricVals getValuePrice mainP0 comps0 ∧
    metricBars getValuePrice mainP0 comps0 =
      (metricVals getValuePrice mainP0 comps0).map (jsScale 20) :=
  (metric_bar_widths getValuePrice (by simp [metricGetters]) mainP0 comps0).2 20
    (by rw [show metricMax getValuePrice mainP0 comps0 =
          .num (max (max (10 : ℚ) 0) 20) from rfl]
        norm_num)
    (by norm_num)

/-- C4 counterexample: a response whose stripped text is the JSON object
without a "profile" key does not make analyzeProductProfile fail — the
call succeeds with an undefined profile, refuting the absent-key failure
case. -/
theorem analyzeProfile_missing_key_counterexample :
    parseJson (stripFences "\x7b\x7d").toList = .ok (.vObj []) ∧
    lookupField ([] : List (String × JsVal)) "profile" = none ∧
    analyzeProductProfile true (.ok respNoProfile) = .ok ⟨.vUndefined, []⟩ :=
  ⟨rfl, rfl, rfl⟩

/-- C4 amended: analyzeProductProfile fails with the stage-1 analysis
error when the network call errors or when the response text is not
valid JSON after code-fence stripping; an absent "profile" key in the
parsed object is not a failure — the call then succeeds with an
undefined profile.  (A missing API key fails with its own distinct
message before any of this.) -/
theorem analyzeProfile_failure_cases :
    (∀ msg, analyzeProductProfile true (.error msg) =
       .error "Failed to analyze profile.") ∧
    (∀ response s e, responseText response = .ok s →
       parseJson (stripFences s).toList = .error e →
       analyzeProductProfile true (.ok response) =
         .error "Failed to analyze profile.") ∧
    (∀ net, analyzeProductProfile false net =
       .error "API Key is missing. Please check your environment configuration.") ∧
    (∀ (response : JsVal) (s : String) (fields : List (String × JsVal))
        (srcs : List JsVal),
       responseText response = .ok s →
       parseJson (stripFences s).toList = .ok (.vObj fields) →
       lookupField fields "profile" = none →
       extractSources response = .ok srcs →
       analyzeProductProfile true (.ok response) = .ok ⟨.vUndefined, srcs⟩) := by
  refine ⟨fun msg => rfl, ?_, fun net => rfl, ?_⟩
  · intro response s e h1 h2
    simp only [String.toList] at h2
    simp [analyzeProductProfile, profileTryBody, h1, h2]
  · intro response s fields srcs h1 h2 h3 h4
    simp only [String.toList] at h2
    simp [analyzeProductProfile, profileTryBody, h1, h2, h3, h4, getField, jsField]

/-- Witness for C4 (amended): the concrete no-profile response succeeds
with an undefined profile and no sources. -/
theorem analyzeProfile_failure_cases_witness :
    analyzeProductProfile true (.ok respNoProfile) = .ok ⟨.vUndefined, []⟩ :=
  analyzeProfile_failure_cases.2.2.2 respNoProfile "\x7b\x7d" [] [] rfl rfl rfl rfl

/-- Walking a chunk list of non-nullish chunks never throws and collects
exactly the truthy web URIs. -/
theorem walkChunks_ok (chunks : List JsVal)
    (h : ∀ c ∈ chunks, c ≠ .vNull ∧ c ≠ .vUndefined) :
    ∀ acc, walkChunks acc chunks = .ok (acc ++ collectedUris chunks) := by
  induction chunks with
  | nil => intro acc; simp [walkChunks, collectedUris]
  | cons c cs ih =>
      intro acc
      obtain ⟨h1, h2⟩ := h c (List.mem_cons_self c cs)
      have hge : getField c "web" = .ok (jsField c "web") := by
        cases c
        case vNull => exact absurd rfl h1
        case vUndefined => exact absurd rfl h2
        all_goals rfl
      have hcs := ih fun x hx => h x (List.mem_cons_of_mem _ hx)
      rw [walkChunks, hge]
      dsimp only
      by_cases ht : jsTruthy (optField (jsField c "web") "uri") = true
      · rw [if_pos ht, hcs]
        simp [collectedUris, List.filterMap_cons, ht]
      · rw [if_neg ht, hcs]
        simp only [Bool.not_eq_true] at ht
        simp [collectedUris, List.filterMap_cons, ht]

/-- Every element the dedup keeps came from its input list. -/
theorem setDedupJsGo_subset (l : List JsVal) :
    ∀ (seen : List JsPrim) (v : JsVal), v ∈ setDedupJsGo seen l → v ∈ l := by
  induction l with
  | nil => intro seen v hv; simp [setDedupJsGo] at hv
  | cons x xs ih =>
      intro seen v hv
      simp only [setDedupJsGo] at hv
      cases hx : x.asPrim with
      | none =>
          rw [hx] at hv
          dsimp only at hv
          rcases List.mem_cons.mp hv with rfl | hv
          · exact List.mem_cons_self _ _
          · exact List.mem_cons_of_mem _ (ih seen v hv)
      | some p =>
          rw [hx] at hv
          dsimp only at hv
          by_cases hp : p ∈ seen
          · rw [if_pos hp] at hv
            exact List.mem_cons_of_mem _ (ih seen v hv)
          · rw [if_neg hp] at hv
            rcases List.mem_cons.mp hv with rfl | hv
            · exact List.mem_cons_self _ _
            · exact List.mem_cons_of_mem _ (ih _ v hv)

/-- Dedup membership for all-string source lists: a string value survives
iff it occurs in the input and its key is not among the seen ones. -/
theorem setDedupJsGo_mem_str (l : List JsVal)
    (hl : ∀ x ∈ l, ∃ s : String, x = .vStr s) :
    ∀ (seen : List JsPrim) (t : String),
      (JsVal.vStr t ∈ setDedupJsGo seen l ↔
        JsVal.vStr t ∈ l ∧ JsPrim.pStr t ∉ seen) := by
  induction l with
  | nil => intro seen t; simp [setDedupJsGo]
  | cons x xs ih =>
      intro seen t
      obtain ⟨s, rfl⟩ := hl x (List.mem_cons_self x xs)
      have hl2 : ∀ x ∈ xs, ∃ s : String, x = .vStr s :=
        fun x hx => hl x (List.mem_cons_of_mem _ hx)
      simp only [setDedupJsGo, JsVal.asPrim]
      by_cases hp : JsPrim.pStr s ∈ seen
      · rw [if_pos hp, ih hl2 seen t]
        constructor
        · rintro ⟨hm, hn⟩
          exact ⟨List.mem_cons_of_mem _ hm, hn⟩
        · rintro ⟨hm, hn⟩
          rcases List.mem_cons.mp hm with heq | hm
          · obtain rfl : t = s := JsVal.vStr.inj heq
            exact absurd hp hn
          · exact ⟨hm, hn⟩
      · rw [if_neg hp]
        rw [List.mem_cons, ih hl2 (seen ++ [JsPrim.pStr s]) t]
        simp only [List.mem_cons, List.mem_append, List.mem_singleton,
          JsVal.vStr.injEq, JsPrim.pStr.injEq]
        constructor
        · rintro (rfl | ⟨hm, hn⟩)
          · exact ⟨Or.inl rfl, hp⟩
          · exact ⟨Or.inr hm, fun hc => hn (Or.inl hc)⟩
        · rintro ⟨hm | hm, hn⟩
          · exact Or.inl hm
          · by_cases hts : t = s
            · exact Or.inl hts
            · refine Or.inr ⟨hm, ?_⟩
              rintro (hc | hc | hc)
              · exact hn hc
              · exact hts hc
              · simp at hc

/-- Dedup of an all-string source list is duplicate-free. -/
theorem setDedupJsGo_nodup_str (l : List JsVal)
    (hl : ∀ x ∈ l, ∃ s : String, x = .vStr s) :
    ∀ seen : List JsPrim, (setDedupJsGo seen l).Nodup := by
  induction l with
  | nil => intro seen; simp [setDedupJsGo]
  | cons x xs ih =>
      intro seen
      obtain ⟨s, rfl⟩ := hl x (List.mem_cons_self x xs)
      have hl2 : ∀ x ∈ xs, ∃ s : String, x = .vStr s :=
        fun x hx => hl x (List.mem_cons_of_mem _ hx)
      simp only [setDedupJsGo, JsVal.asPrim]
      by_cases hp : JsPrim.pStr s ∈ seen
      · rw [if_pos hp]
        exact ih hl2 seen
      · rw [if_neg hp]
        refine List.nodup_cons.mpr ⟨?_, ih hl2 _⟩
        rw [setDedupJsGo_mem_str xs hl2 _ s]
        rintro ⟨_, hns⟩
        exact hns (by simp)

/-- C8 counterexample: on a response whose grounding-chunk value is a
truthy non-array, the source-extraction helper throws instead of
degrading to an empty result. -/
theorem extractSources_throws_counterexample :
    extractSources respBadChunks = .error "TypeError: forEach is not a function" :=
  rfl

/-- C8 amended: for a response object the helper returns the empty set
whenever the optional grounding-chunk value is falsy (absent metadata at
any level), and for a chunk array of non-nullish chunks with string URIs
it returns the deduplicated URI set without throwing; a truthy non-array
chunk value, however, does throw. -/
theorem extractSources_wellformed (fields : List (String × JsVal)) :
    (jsTruthy (chunksOf (.vObj fields)) = false →
       extractSources (.vObj fields) = .ok []) ∧
    (∀ chunks : List JsVal,
       chunksOf (.vObj fields) = .vArr chunks →
       (∀ c ∈ chunks, c ≠ .vNull ∧ c ≠ .vUndefined) →
       (∀ u ∈ collectedUris chunks, ∃ s : String, u = .vStr s) →
       extractSources (.vObj fields) = .ok (setDedupJs (collectedUris chunks)) ∧
       (setDedupJs (collectedUris chunks)).Nodup ∧
       ∀ u, u ∈ setDedupJs (collectedUris chunks) ↔ u ∈ collectedUris chunks) := by
  constructor
  · intro hfal
    simp only [chunksOf, jsField] at hfal
    simp [extractSources, getField, jsField, hfal, setDedupJs, setDedupJsGo]
  · intro chunks hchunks hnn hstr
    have hwalk := walkChunks_ok chunks hnn []
    simp only [chunksOf, jsField] at hchunks
    have hext : extractSources (.vObj fields) = .ok (setDedupJs (collectedUris chunks)) := by
      simp [extractSources, getField, jsField, jsTruthy, hchunks, hwalk]
    refine ⟨hext, setDedupJsGo_nodup_str _ hstr [], fun u => ?_⟩
    constructor
    · intro hu
      exact setDedupJsGo_subset _ _ u hu
    · intro hu
      obtain ⟨s, rfl⟩ := hstr u hu
      exact (setDedupJsGo_mem_str _ hstr [] s).mpr ⟨hu, by simp⟩

/-- Witness for C8 (amended): a concrete response with two chunks citing
the same URI extracts the deduplicated singleton without throwing. -/
theorem extractSources_wellformed_witness :
    extractSources respGood = .ok [.vStr "https://a.example"] :=
  ((extractSources_wellformed
      [("candidates", .vArr [.vObj [("groundingMetadata",
        .vObj [("groundingChunks", .vArr goodChunks)])]])]).2 goodChunks rfl
    (by intro c hc; fin_cases hc <;> exact ⟨by simp [chunkA], by simp [chunkA]⟩)
    (by intro u hu; fin_cases hu <;> exact ⟨"https://a.example", rfl⟩)).1
